import Mathlib

/-!
# retesteth: `TestBlockchain` (blockchain test filler)

A shallow embedding of `src/retesteth/testSuites/blockchain/fillers/TestBlockchain.cpp`.

* C++ member functions become Lean functions that pass the object state
  (`TestBlockchain`) and the remote session (`RPCSession`) explicitly.
* A C++ exception thrown by `ETH_ERROR_REQUIRE_MESSAGE` becomes `Except.error`; the
  session state reached at the point of the throw is kept beside the result, the way a
  C++ exception leaves the objects it has already mutated.
* The remote client is a deterministic black box: its replies are functions of the log
  of requests it has received so far.
-/

namespace retesteth

/-! ## Data tree (`dataobject::DataObject`) -/

/-- Modelled from the spec: the structured data tree (`DataObject`) used for fixtures, whose
class is not part of the sources at hand. A node is null, a string, an array or an object
with keyed sub-objects kept in insertion order. -/
inductive DataObject where
  | null
  | string (s : String)
  | array (elems : List DataObject)
  | object (fields : List (String × DataObject))

namespace DataObject

instance : Inhabited DataObject := ⟨DataObject.null⟩

/-- Sub-objects of a node with their keys (`getSubObjects`); array elements carry the
empty key, scalar nodes have none. -/
def getSubObjects : DataObject → List (String × DataObject)
  | object fields => fields
  | array elems => elems.map (fun e => ("", e))
  | _ => []

/-- The string held by a string node (`asString`); empty for other nodes. -/
def asString : DataObject → String
  | string s => s
  | _ => ""

/-- Replace the value stored under `key`, or append the pair when the key is new. -/
def setField (key : String) (v : DataObject) :
    List (String × DataObject) → List (String × DataObject)
  | [] => [(key, v)]
  | (k, w) :: rest => if k = key then (k, v) :: rest else (k, w) :: setField key v rest

/-- Lookup of a key among keyed sub-objects. -/
def lookupField (key : String) : List (String × DataObject) → Option DataObject
  | [] => none
  | (k, w) :: rest => if k = key then some w else lookupField key rest

/-- The C++ `obj.count(key)`: 1 when the key is present, else 0. -/
def count (d : DataObject) (key : String) : Nat :=
  match lookupField key d.getSubObjects with
  | some _ => 1
  | none => 0

/-- The C++ `obj.atKey(key)`; the null node stands for a missing key. -/
def atKey (d : DataObject) (key : String) : DataObject :=
  (lookupField key d.getSubObjects).getD DataObject.null

/-- The C++ `obj[key] = v`: overwrite the sub-object under `key`, creating it when absent. -/
def set (d : DataObject) (key : String) (v : DataObject) : DataObject :=
  object (setField key v d.getSubObjects)

/-- The C++ `obj.removeKey(key)`. -/
def removeKey (d : DataObject) (key : String) : DataObject :=
  object (d.getSubObjects.filter (fun kv => decide (kv.1 ≠ key)))

/-- The C++ `arr.addArrayObject(v)`. -/
def addArrayObject : DataObject → DataObject → DataObject
  | array elems, v => array (elems ++ [v])
  | _, v => array [v]

end DataObject

/-! ## Remote block view (`test::scheme_block`) -/

/-- Modelled from the spec: the RemoteBlockView (`scheme_block`), whose class is not part of
the sources at hand: header, encoded block bytes, transaction count, attached uncles (kept as
their headers) and the validity flag. -/
structure scheme_block where
  m_blockHeader : DataObject
  m_blockRLP : String
  m_transactionCount : Nat
  m_uncles : List DataObject
  m_isValid : Bool

/-- What the remote answers to `eth_getBlockByNumber`: the data a `scheme_block` is built from. -/
structure BlockReply where
  header : DataObject
  rlp : String
  transactionCount : Nat

/-- Construction of a `scheme_block` from a remote answer; the validity flag defaults to true. -/
def scheme_block.ofReply (r : BlockReply) : scheme_block :=
  { m_blockHeader := r.header, m_blockRLP := r.rlp, m_transactionCount := r.transactionCount,
    m_uncles := [], m_isValid := true }

/-! ## Remote session (`RPCSession`) -/

/-- The requests `TestBlockchain` sends to the remote client. -/
inductive RPCCall where
  | test_mineBlocks (count : Nat)
  | eth_getBlockByNumber (number : String) (fullTransactions : Bool)
  | eth_sendRawTransaction (rlp : String)
  | test_rewindToBlock (number : Nat)
  | test_importRawBlock (rlp : String)
  | test_modifyTimestamp (timestamp : Nat)
  deriving DecidableEq

/-- The remote session: the log of requests sent so far (oldest first) and the remote
client as a deterministic black box answering from that log. -/
structure RPCSession where
  requests : List RPCCall
  minedReply : List RPCCall → String
  blockReply : List RPCCall → BlockReply
  lastError : List RPCCall → String

namespace RPCSession

/-- Append one request to the log. -/
def send (s : RPCSession) (c : RPCCall) : RPCSession :=
  { s with requests := s.requests ++ [c] }

def test_rewindToBlock (s : RPCSession) (number : Nat) : RPCSession :=
  s.send (RPCCall.test_rewindToBlock number)

def test_importRawBlock (s : RPCSession) (rlp : String) : RPCSession :=
  s.send (RPCCall.test_importRawBlock rlp)

def test_modifyTimestamp (s : RPCSession) (timestamp : Nat) : RPCSession :=
  s.send (RPCCall.test_modifyTimestamp timestamp)

def eth_sendRawTransaction (s : RPCSession) (rlp : String) : RPCSession :=
  s.send (RPCCall.eth_sendRawTransaction rlp)

/-- Mine `count` blocks; the remote answers with the latest block number. -/
def test_mineBlocks (s : RPCSession) (count : Nat) : String × RPCSession :=
  let s1 := s.send (RPCCall.test_mineBlocks count)
  (s1.minedReply s1.requests, s1)

/-- Fetch a block by its number. -/
def eth_getBlockByNumber (s : RPCSession) (number : String) (fullTransactions : Bool) :
    scheme_block × RPCSession :=
  let s1 := s.send (RPCCall.eth_getBlockByNumber number fullTransactions)
  (scheme_block.ofReply (s1.blockReply s1.requests), s1)

/-- The error text of the most recent request (empty when it succeeded). -/
def getLastRPCErrorMessage (s : RPCSession) : String :=
  s.lastError s.requests

end RPCSession

/-! ## Filler blocks and the chain (`TestBlock`, `TestBlockchain`) -/

/-- Modelled from the spec: one ChainHistory entry (`TestBlock`), whose class is not part of
the sources at hand: the fixture object, the attached uncles and the forked next block. -/
structure TestBlock where
  m_dataForTest : DataObject
  m_uncles : List scheme_block
  m_nextBlockForked : Option scheme_block

namespace TestBlock

/-- A freshly declared `TestBlock newBlock;`. -/
def empty : TestBlock :=
  { m_dataForTest := DataObject.null, m_uncles := [], m_nextBlockForked := none }

/-- The encoded bytes of the block: `generateBlock` stores them nowhere but under the key
"rlp" of the fixture object, so they are read from there. -/
def getRLP (b : TestBlock) : String :=
  (b.m_dataForTest.atKey "rlp").asString

def addUncle (b : TestBlock) (u : scheme_block) : TestBlock :=
  { b with m_uncles := b.m_uncles ++ [u] }

def setNextBlockForked (b : TestBlock) (n : scheme_block) : TestBlock :=
  { b with m_nextBlockForked := some n }

end TestBlock

/-- The chain builder: network name and ChainHistory (`m_blocks`). The session handle
`m_session` is passed beside it. -/
structure TestBlockchain where
  m_network : String
  m_blocks : List TestBlock

/-! ## `TestBlockchain::restoreUpToNumber` -/

/-- Loop variables of the second `for` of `restoreUpToNumber`, with the session. -/
structure RestoreLoop where
  actNumber : Nat
  popUpCount : Nat
  session : RPCSession

/-- Body of the first loop (`_number == 0`): skip genesis, import every other block. -/
def restoreAllStep (st : Nat × RPCSession) (block : TestBlock) : Nat × RPCSession :=
  if st.1 = 0 then (st.1 + 1, st.2)
  else (st.1 + 1, st.2.test_importRawBlock block.getRLP)

/-- Body of the second loop of `restoreUpToNumber`. The line written to `std::cerr` when
a block is counted for removal is a diagnostic and is left out. -/
def restoreStep (firstBlock _number : Nat) (st : RestoreLoop) (block : TestBlock) :
    RestoreLoop :=
  if st.actNumber = 0 then
    { st with actNumber := st.actNumber + 1 }
  else if st.actNumber < firstBlock then
    { st with actNumber := st.actNumber + 1 }
  else if st.actNumber < _number then
    { st with session := st.session.test_importRawBlock block.getRLP,
              actNumber := st.actNumber + 1 }
  else
    { st with popUpCount := st.popUpCount + 1, actNumber := st.actNumber + 1 }

/-- The loop `for (i = 0; i < popUpCount; i++) m_blocks.pop_back();`. -/
def popBlocks : Nat → List TestBlock → List TestBlock
  | 0, blocks => blocks
  | n + 1, blocks => popBlocks n blocks.dropLast

/-- The C++ `TestBlockchain::restoreUpToNumber(_session, _number, _samechain)`. -/
def restoreUpToNumber (tb : TestBlockchain) (_session : RPCSession) (_number : Nat)
    (_samechain : Bool) : TestBlockchain × RPCSession :=
  if _samechain && _number == 0 then (tb, _session)
  else
    let firstBlock := if _samechain then _number else 0
    let s1 := _session.test_rewindToBlock firstBlock
    if _number == 0 then
      (tb, (tb.m_blocks.foldl restoreAllStep (0, s1)).2)
    else
      let st := tb.m_blocks.foldl (restoreStep firstBlock _number)
        { actNumber := 0, popUpCount := 0, session := s1 }
      ({ tb with m_blocks := popBlocks st.popUpCount tb.m_blocks }, st.session)

/-! ## Numbers and strings -/

/-- The C++ `size_t` has 64 bits. -/
def SIZE_MAX1 : Nat := 2 ^ 64

/-- Unsigned subtraction `a - b` on `size_t` values: it wraps around below zero. -/
def size_t_sub (a b : Nat) : Nat := (a + SIZE_MAX1 - b) % SIZE_MAX1

/-- Conversion of a C++ `int` to `size_t`. -/
def toSizeT (i : Int) : Nat := (i % (SIZE_MAX1 : Int)).toNat

/-- Decimal digits of `n` put in front of `acc`; `fuel` bounds the number of digits. -/
def decimalDigits : Nat → Nat → List Char → List Char
  | 0, _, acc => acc
  | fuel + 1, n, acc =>
    let acc1 := Char.ofNat (48 + n % 10) :: acc
    if n / 10 = 0 then acc1 else decimalDigits fuel (n / 10) acc1

/-- The C++ `toString(n)` for an unsigned number: its decimal digits. -/
def natToString (n : Nat) : String := String.mk (decimalDigits (n + 1) n [])

/-- Decimal string of a signed number. -/
def intToString : Int → String
  | Int.ofNat n => natToString n
  | Int.negSucc n => String.mk ('-' :: (natToString (n + 1)).data)

/-- Value of a string of decimal digits. -/
def parseDecimal (cs : List Char) : Nat :=
  cs.foldl (fun acc c => 10 * acc + (c.toNat - 48)) 0

/-- Value of a decimal string with an optional sign, as in `"+5"`, `"-1"` or `"1000"`. -/
def parseSigned (s : String) : Int :=
  match s.data with
  | '+' :: rest => Int.ofNat (parseDecimal rest)
  | '-' :: rest => - Int.ofNat (parseDecimal rest)
  | cs => Int.ofNat (parseDecimal cs)

/-- Search of `needle` in `hay` from the left; `pos` is the offset of `hay` in the whole
string. The result `none` stands for `string::npos`. -/
def findFrom (needle : List Char) : List Char → Nat → Option Nat
  | [], pos => if needle.isPrefixOf [] then some pos else none
  | c :: rest, pos =>
    if needle.isPrefixOf (c :: rest) then some pos else findFrom needle rest (pos + 1)

/-- The C++ `hay.find(needle)` of `std::string`. -/
def find (hay needle : String) : Option Nat := findFrom needle.data hay.data 0

/-- Modelled from the spec: BlockNumber, whose class is not part of the sources at hand:
a value that is an integer or a string, convertible to both an integer and a decimal
string. -/
inductive BlockNumber where
  | ofInt (n : Int)
  | ofString (s : String)

namespace BlockNumber

def getBlockNumberAsInt : BlockNumber → Int
  | ofInt n => n
  | ofString s => parseSigned s

def getBlockNumberAsString : BlockNumber → String
  | ofInt n => intToString n
  | ofString s => s

/-- The `applyShift(int)`: shift the value by a signed integer. -/
def applyShift (b : BlockNumber) (shift : Int) : BlockNumber :=
  ofInt (b.getBlockNumberAsInt + shift)

/-- The `applyShift(string)`: shift by a delta written as `"+N"` or `"-N"`. -/
def applyShiftString (b : BlockNumber) (shift : String) : BlockNumber :=
  b.applyShift (parseSigned shift)

end BlockNumber

/-! ## Test description (`blockSection`) and configuration -/

/-- A transaction of the test description: its signed encoding and its fixture form. -/
structure Transaction where
  signedRLP : String
  dataForBCTest : DataObject

/-- Modelled from the spec: the BlockSpec (`blockSection`), whose class is not part of the
sources at hand: the raw data tree, the chain name, the transactions, the number of
transactions expected to fail, and the exception identifier per network. -/
structure blockSection where
  getData : DataObject
  getChainName : String
  getTransactions : List Transaction
  getInvalidTransactionCount : Nat
  getException : String → String

/-- What the filler takes from its surroundings: the configured exception strings of the
client, the hash of an uncle list and the block encoder. -/
structure Environment where
  getExceptionString : String → String
  uncleHash : List DataObject → String
  encodeBlock : DataObject → List DataObject → DataObject → String

namespace scheme_block

def addUncle (b : scheme_block) (uncle : scheme_block) : scheme_block :=
  { b with m_uncles := b.m_uncles ++ [uncle.m_blockHeader] }

/-- Recompute the uncle commitment of the header from the attached uncles. -/
def recalculateUncleHash (env : Environment) (b : scheme_block) : scheme_block :=
  { b with m_blockHeader :=
      b.m_blockHeader.set "sha3Uncles" (DataObject.string (env.uncleHash b.m_uncles)) }

/-- Replace the header and recompute the encoded block bytes. -/
def overwriteBlockHeader (env : Environment) (b : scheme_block) (header : DataObject) :
    scheme_block :=
  { b with m_blockHeader := header,
           m_blockRLP := env.encodeBlock header b.m_uncles b.m_blockHeader }

def setValid (b : scheme_block) (v : Bool) : scheme_block := { b with m_isValid := v }

end scheme_block

/-- Modelled from the spec: the macro `ETH_ERROR_REQUIRE_MESSAGE(cond, message)`, whose
definition is not part of the sources at hand: a fatal error carrying `message` is raised
when `cond` is false. -/
def ETH_ERROR_REQUIRE_MESSAGE (cond : Bool) (message : String) : Except String Unit :=
  if cond then Except.ok () else Except.error message

/-! ## `TestBlockchain::postmineBlockHeader` -/

/-- Body of the loop over the `blockHeader` overrides of the test description. The state is
the header being rewritten and the session. The diagnostic printed for an unknown field
changes neither. -/
def overwriteStep (_latestBlockNumber : BlockNumber) (st : DataObject × RPCSession)
    (replace : String × DataObject) : DataObject × RPCSession :=
  if replace.1 = "updatePoW" ∨ replace.1 = "expectException" then st
  else if replace.1 = "RelTimestamp" then
    let previousBlockNumber := _latestBlockNumber.applyShift (-1)
    let r := st.2.eth_getBlockByNumber previousBlockNumber.getBlockNumberAsString false
    let previousBlockTimestampString := (r.1.m_blockHeader.atKey "timestamp").asString
    let previousBlockTimestamp :=
      (BlockNumber.ofString previousBlockTimestampString).applyShiftString replace.2.asString
    (st.1.set "timestamp" (DataObject.string previousBlockTimestamp.getBlockNumberAsString),
      r.2)
  else if st.1.count replace.1 ≠ 0 then
    (st.1.set replace.1 (DataObject.string replace.2.asString), st.2)
  else st

/-- The first part of `postmineBlockHeader`: the fetched block with the uncles attached and
the uncle hash recomputed, and the session after the fetch. -/
def postmineFetch (env : Environment) (s : RPCSession) (_blockInTest : blockSection)
    (_latestBlockNumber : BlockNumber) (_uncles : List scheme_block) :
    scheme_block × RPCSession :=
  let r := s.eth_getBlockByNumber _latestBlockNumber.getBlockNumberAsString true
  let remoteBlock :=
    if _blockInTest.getData.count "uncleHeaders" ≠ 0 then _uncles.foldl scheme_block.addUncle r.1
    else r.1
  (remoteBlock.recalculateUncleHash env, r.2)

/-- The block, header and session of `postmineBlockHeader` just before the raw import:
the fetched block with the uncles attached, the header after the overrides, and the session
after the requests made so far. -/
def postmineHeader (env : Environment) (s : RPCSession) (_blockInTest : blockSection)
    (_latestBlockNumber : BlockNumber) (_uncles : List scheme_block) :
    scheme_block × DataObject × RPCSession :=
  let f := postmineFetch env s _blockInTest _latestBlockNumber _uncles
  let header := f.1.m_blockHeader
  let hs :=
    if _blockInTest.getData.count "blockHeader" ≠ 0 then
      (_blockInTest.getData.atKey "blockHeader").getSubObjects.foldl
        (overwriteStep _latestBlockNumber) (header, f.2)
    else (header, f.2)
  (f.1, hs.1, hs.2)

/-- The C++ `TestBlockchain::postmineBlockHeader(_blockInTest, _latestBlockNumber, _uncles)`. -/
def postmineBlockHeader (env : Environment) (tb : TestBlockchain) (s : RPCSession)
    (_blockInTest : blockSection) (_latestBlockNumber : BlockNumber)
    (_uncles : List scheme_block) : Except String scheme_block × RPCSession :=
  let p := postmineHeader env s _blockInTest _latestBlockNumber _uncles
  let remoteBlock := p.1.overwriteBlockHeader env p.2.1
  let s1 := p.2.2.test_rewindToBlock (toSizeT (_latestBlockNumber.getBlockNumberAsInt - 1))
  let s2 := s1.test_importRawBlock remoteBlock.m_blockRLP
  if _blockInTest.getException tb.m_network = "NoException" then
    match ETH_ERROR_REQUIRE_MESSAGE (decide (s2.getLastRPCErrorMessage = ""))
        ("Postmine block tweak expected no exception! Client errors with: \x27" ++
          s2.getLastRPCErrorMessage ++ "\x27") with
    | Except.error e => (Except.error e, s2)
    | Except.ok _ => (Except.ok remoteBlock, s2)
  else
    let clientExceptionString :=
      env.getExceptionString (_blockInTest.getException tb.m_network)
    let pos := find s2.getLastRPCErrorMessage clientExceptionString
    let pos := if clientExceptionString = "" then none else pos
    match ETH_ERROR_REQUIRE_MESSAGE (decide (pos ≠ none))
        ("\x27" ++ clientExceptionString ++ "\x27 (" ++
          _blockInTest.getException tb.m_network ++
          ") not found in client response to postmine block tweak! Import result of " ++
          "postmine block: \x27" ++ s2.getLastRPCErrorMessage ++ "\x27, Test Expected: \x27" ++
          clientExceptionString ++ "\x27") with
    | Except.error e => (Except.error e, s2)
    | Except.ok _ => (Except.ok (remoteBlock.setValid false), s2)

/-! ## `TestBlockchain::mineBlock` -/

/-- The lambda `checkTransactions` of `mineBlock`; its arguments are `size_t` values. -/
def checkTransactions (_trInBlocks _trInTest _trAllowedToFail : Nat) : Except String Unit :=
  ETH_ERROR_REQUIRE_MESSAGE (decide (_trInBlocks = size_t_sub _trInTest _trAllowedToFail))
    ("BlockchainTest transaction execution failed! (remote " ++ natToString _trInBlocks ++
      " != test " ++ natToString _trInTest ++
      ", allowedToFail = " ++ natToString _trAllowedToFail ++ " )")

/-- The flag `isUnclesInTest` of `mineBlock`. -/
def isUnclesInTest (_block : blockSection) : Bool :=
  if _block.getData.count "uncleHeaders" ≠ 0 then
    decide ((_block.getData.atKey "uncleHeaders").getSubObjects.length > 0)
  else false

/-- The condition under which `mineBlock` takes the post-mine path. -/
def needsPostmine (_block : blockSection) : Bool :=
  decide (_block.getData.count "blockHeader" ≠ 0) || isUnclesInTest _block

/-- The C++ `TestBlockchain::mineBlock(_block, _preparedUncleBlocks)`. -/
def mineBlock (env : Environment) (tb : TestBlockchain) (s : RPCSession)
    (_block : blockSection) (_preparedUncleBlocks : List scheme_block) :
    Except String scheme_block × RPCSession :=
  let m := s.test_mineBlocks 1
  let latestBlockNumber := m.1
  if needsPostmine _block then
    match postmineBlockHeader env tb m.2 _block (BlockNumber.ofString latestBlockNumber)
        _preparedUncleBlocks with
    | (Except.error e, s1) => (Except.error e, s1)
    | (Except.ok latestBlock, s1) =>
      match checkTransactions latestBlock.m_transactionCount _block.getTransactions.length
          _block.getInvalidTransactionCount with
      | Except.error e => (Except.error e, s1)
      | Except.ok _ => (Except.ok latestBlock, s1)
  else
    let r := m.2.eth_getBlockByNumber latestBlockNumber true
    match checkTransactions r.1.m_transactionCount _block.getTransactions.length
        _block.getInvalidTransactionCount with
    | Except.error e => (Except.error e, r.2)
    | Except.ok _ => (Except.ok r.1, r.2)

/-! ## `TestBlockchain::importTransactions`, `mineNextBlockAndRewert`, `generateBlock` -/

/-- The C++ `TestBlockchain::importTransactions(_block)`: send every transaction, collect
the fixture form of each. -/
def importTransactions (s : RPCSession) (_block : blockSection) : DataObject × RPCSession :=
  _block.getTransactions.foldl
    (fun st tr => (st.1.addArrayObject tr.dataForBCTest, st.2.eth_sendRawTransaction tr.signedRLP))
    (DataObject.array [], s)

/-- The C++ `TestBlockchain::mineNextBlockAndRewert()`. -/
def mineNextBlockAndRewert (s : RPCSession) : scheme_block × RPCSession :=
  let m := s.test_mineBlocks 1
  let latestBlockNumber := BlockNumber.ofString m.1
  let r := m.2.eth_getBlockByNumber latestBlockNumber.getBlockNumberAsString false
  let latestBlockNumber := latestBlockNumber.applyShift (-1)
  let s1 := r.2.test_rewindToBlock (toSizeT latestBlockNumber.getBlockNumberAsInt)
  let s2 := s1.test_modifyTimestamp 1000
  (r.1, s2)

/-- The part of `generateBlock` before the call of `mineBlock`: the new block with chain
name, block number, transactions and prepared uncles. -/
def prepareBlock (tb : TestBlockchain) (s : RPCSession) (_block : blockSection)
    (_uncles : List scheme_block) : TestBlock × RPCSession :=
  let newBlock := TestBlock.empty
  let blockJson := newBlock.m_dataForTest
  let blockJson := blockJson.set "chainname" (DataObject.string _block.getChainName)
  let blockJson :=
    blockJson.set "blocknumber" (DataObject.string (natToString (tb.m_blocks.length + 1)))
  let t := importTransactions s _block
  let blockJson := blockJson.set "transactions" t.1
  let blockJson := blockJson.set "uncleHeaders" (DataObject.array [])
  let st := _uncles.foldl
    (fun (st : DataObject × TestBlock) uncle =>
      (st.1.set "uncleHeaders" ((st.1.atKey "uncleHeaders").addArrayObject uncle.m_blockHeader),
        st.2.addUncle uncle))
    (blockJson, newBlock)
  ({ st.2 with m_dataForTest := st.1 }, t.2)

/-- The part of `generateBlock` that records the outcome of `mineBlock` in the fixture. -/
def recordBlock (tb : TestBlockchain) (_block : blockSection) (blockJson : DataObject)
    (latestBlock : scheme_block) : DataObject :=
  let blockJson :=
    if !latestBlock.m_isValid then
      ((blockJson.removeKey "transactions").removeKey "uncleHeaders").set "expectException"
        (DataObject.string (_block.getException tb.m_network))
    else blockJson.set "blockHeader" latestBlock.m_blockHeader
  blockJson.set "rlp" (DataObject.string latestBlock.m_blockRLP)

/-- The C++ `TestBlockchain::generateBlock(_block, _uncles)`. The chain is returned as it
is when the call ends, also when it ends by a fatal error. -/
def generateBlock (env : Environment) (tb : TestBlockchain) (s : RPCSession)
    (_block : blockSection) (_uncles : List scheme_block) :
    Except String Unit × TestBlockchain × RPCSession :=
  let p := prepareBlock tb s _block _uncles
  match mineBlock env tb p.2 _block _uncles with
  | (Except.error e, s1) => (Except.error e, tb, s1)
  | (Except.ok latestBlock, s1) =>
    let blockJson := recordBlock tb _block p.1.m_dataForTest latestBlock
    let n := mineNextBlockAndRewert s1
    let newBlock := { p.1 with m_dataForTest := blockJson }.setNextBlockForked n.1
    (Except.ok (), { tb with m_blocks := tb.m_blocks ++ [newBlock] }, n.2)

/-! ## Sample data -/

/-- A stored block whose fixture holds the given encoded bytes. -/
def sampleBlock (rlp : String) : TestBlock :=
  { m_dataForTest := DataObject.object [("rlp", DataObject.string rlp)],
    m_uncles := [], m_nextBlockForked := none }

/-- A chain of genesis and two blocks. -/
def sampleChain : TestBlockchain :=
  { m_network := "Frontier",
    m_blocks := [sampleBlock "0xc0", sampleBlock "0xc1", sampleBlock "0xc2"] }

/-- A session that has sent nothing yet; the remote answers every request the same way. -/
def sampleSession : RPCSession :=
  { requests := [],
    minedReply := fun _ => "3",
    blockReply := fun _ =>
      { header := DataObject.object [("timestamp", DataObject.string "1000")],
        rlp := "0xc3", transactionCount := 2 },
    lastError := fun _ => "" }

/-- An environment whose client has the text "Invalid gas limit" for every exception. -/
def sampleEnv : Environment :=
  { getExceptionString := fun _ => "Invalid gas limit",
    uncleHash := fun _ => "0x1dcc",
    encodeBlock := fun _ _ _ => "0xf9" }

/-- An environment whose client has no text configured for any exception. -/
def sampleEnvUnconfigured : Environment :=
  { getExceptionString := fun _ => "",
    uncleHash := fun _ => "0x1dcc",
    encodeBlock := fun _ _ _ => "0xf9" }

/-- A block description with two transactions, no override, no uncles, no exception. -/
def samplePlainBlock : blockSection :=
  { getData := DataObject.object [],
    getChainName := "default",
    getTransactions :=
      [{ signedRLP := "0xf860", dataForBCTest := DataObject.object [] },
       { signedRLP := "0xf861", dataForBCTest := DataObject.object [] }],
    getInvalidTransactionCount := 0,
    getException := fun _ => "NoException" }

/-- A block description with a gas limit override that expects no exception. -/
def sampleOverrideBlock : blockSection :=
  { samplePlainBlock with
    getData := DataObject.object
      [("blockHeader", DataObject.object [("gasLimit", DataObject.string "0x01")])] }

/-- A block description with a gas limit override that expects `InvalidGasLimit`. -/
def sampleInvalidBlock : blockSection :=
  { sampleOverrideBlock with getException := fun _ => "InvalidGasLimit" }

/-- A session whose remote reports the given error text after every request. -/
def sampleFailingSession (message : String) : RPCSession :=
  { sampleSession with lastError := fun _ => message }

/-- A block description whose overrides hold a relative timestamp of five seconds and,
after it, a plain timestamp. -/
def sampleTimestampBlock : blockSection :=
  { samplePlainBlock with
    getData := DataObject.object
      [("blockHeader", DataObject.object
        [("RelTimestamp", DataObject.string "+5"), ("timestamp", DataObject.string "7")])] }

/-- A block description whose only override is a relative timestamp of five seconds. -/
def sampleRelTimestampBlock : blockSection :=
  { samplePlainBlock with
    getData := DataObject.object
      [("blockHeader", DataObject.object [("RelTimestamp", DataObject.string "+5")])] }

/-- The parent block as the remote reports it when the override loop of
`postmineBlockHeader` reaches a `RelTimestamp` directive that stands after the overrides
`pre`: the answer to the request for the block at height latest - 1. -/
def reportedParent (env : Environment) (s : RPCSession) (_blockInTest : blockSection)
    (_latestBlockNumber : BlockNumber) (_uncles : List scheme_block)
    (pre : List (String × DataObject)) : scheme_block :=
  let f := postmineFetch env s _blockInTest _latestBlockNumber _uncles
  ((pre.foldl (overwriteStep _latestBlockNumber) (f.1.m_blockHeader, f.2)).2.eth_getBlockByNumber
    (_latestBlockNumber.applyShift (-1)).getBlockNumberAsString false).1

/-- The timestamp of a block as a number. -/
def timestampOf (b : scheme_block) : Int :=
  (BlockNumber.ofString (b.m_blockHeader.atKey "timestamp").asString).getBlockNumberAsInt

/-- Whether a result is a normal return. -/
def returnsNormally {α : Type} : Except String α → Bool
  | Except.ok _ => true
  | Except.error _ => false

/-- The raw import request of a stored block. -/
def importOf (b : TestBlock) : RPCCall := RPCCall.test_importRawBlock b.getRLP

/-! ## Theorems: `restoreUpToNumber` -/

theorem restoreAll_foldl (l : List TestBlock) (a : Nat) (s : RPCSession) (ha : 1 ≤ a) :
    (l.foldl restoreAllStep (a, s)).2
      = { s with requests := s.requests ++ l.map importOf } := by
  induction l generalizing a s with
  | nil => simp
  | cons b t ih =>
    have h0 : a ≠ 0 := by omega
    simp only [List.foldl_cons, restoreAllStep, h0, if_false]
    rw [ih (a + 1) _ (by omega)]
    simp [RPCSession.test_importRawBlock, RPCSession.send, importOf]

theorem restoreStep_foldl (f n : Nat) (hfn : f ≤ n) (l : List TestBlock) (a p : Nat)
    (s : RPCSession) (ha : 1 ≤ a) :
    l.foldl (restoreStep f n) { actNumber := a, popUpCount := p, session := s }
      = { actNumber := a + l.length, popUpCount := p + (l.length - (n - a)),
          session := { s with requests :=
            s.requests ++ ((l.take (n - a)).drop (f - a)).map importOf } } := by
  induction l generalizing a p s with
  | nil => simp
  | cons b t ih =>
    have h0 : a ≠ 0 := by omega
    simp only [List.foldl_cons, restoreStep, h0, if_false]
    by_cases h1 : a < f
    · obtain ⟨k, hk⟩ : ∃ k, n - a = k + 1 := ⟨n - a - 1, by omega⟩
      obtain ⟨j, hj⟩ : ∃ j, f - a = j + 1 := ⟨f - a - 1, by omega⟩
      have hk1 : n - (a + 1) = k := by omega
      have hj1 : f - (a + 1) = j := by omega
      simp only [h1, if_true]
      rw [ih (a + 1) p s (by omega), hk, hj, hk1, hj1]
      simp only [List.take_succ_cons, List.drop_succ_cons, List.length_cons]
      have e1 : a + 1 + t.length = a + (t.length + 1) := by omega
      have e2 : p + (t.length - k) = p + (t.length + 1 - (k + 1)) := by omega
      rw [e1, e2]
    · by_cases h2 : a < n
      · obtain ⟨k, hk⟩ : ∃ k, n - a = k + 1 := ⟨n - a - 1, by omega⟩
        have hk1 : n - (a + 1) = k := by omega
        have hj : f - a = 0 := by omega
        have hj1 : f - (a + 1) = 0 := by omega
        simp only [h1, h2, if_true, if_false]
        rw [ih (a + 1) p _ (by omega), hk, hj, hk1, hj1]
        simp only [List.take_succ_cons, List.drop_zero, List.length_cons, List.map_cons,
          RPCSession.test_importRawBlock, RPCSession.send, List.append_assoc,
          List.singleton_append]
        have e1 : a + 1 + t.length = a + (t.length + 1) := by omega
        have e2 : p + (t.length - k) = p + (t.length + 1 - (k + 1)) := by omega
        rw [e1, e2]
        rfl
      · have hk : n - a = 0 := by omega
        have hk1 : n - (a + 1) = 0 := by omega
        simp only [h1, h2, if_false]
        rw [ih (a + 1) (p + 1) s (by omega), hk, hk1]
        simp only [List.take_zero, List.length_cons, Nat.sub_zero]
        have e1 : a + 1 + t.length = a + (t.length + 1) := by omega
        have e2 : p + 1 + t.length = p + (t.length + 1) := by omega
        rw [e1, e2]
        simp only [List.drop_nil]

theorem popBlocks_eq_take (p : Nat) (l : List TestBlock) :
    popBlocks p l = l.take (l.length - p) := by
  induction p generalizing l with
  | zero => simp [popBlocks]
  | succ k ih =>
    simp only [popBlocks]
    rw [ih, List.dropLast_eq_take, List.take_take, List.length_take]
    congr 1
    omega

/-- What `restoreUpToNumber` does for a positive target: the history is cut to its first
`n` entries; the remote gets a rewind (to `n` on the same chain, else to 0) and, when not on
the same chain, the raw imports of the kept entries after genesis. -/
theorem restoreUpToNumber_pos (tb : TestBlockchain) (s : RPCSession) (n : Nat) (sc : Bool)
    (hn : 0 < n) :
    restoreUpToNumber tb s n sc
      = ({ tb with m_blocks := tb.m_blocks.take n },
         { s with requests := s.requests ++
             RPCCall.test_rewindToBlock (if sc then n else 0) ::
               (if sc then [] else ((tb.m_blocks.take n).drop 1).map importOf) }) := by
  have hn0 : n ≠ 0 := by omega
  have hfn : (if sc = true then n else 0) ≤ n := by split <;> omega
  have hc1 : (sc && n == 0) = false := by simp [hn0]
  have hc2 : (n == 0) = false := by simp [hn0]
  unfold restoreUpToNumber
  simp only [hc1, hc2, Bool.false_eq_true, if_false]
  cases hb : tb.m_blocks with
  | nil => simp [popBlocks, RPCSession.test_rewindToBlock, RPCSession.send]
  | cons g t =>
    obtain ⟨k, hk⟩ : ∃ k, n = k + 1 := ⟨n - 1, by omega⟩
    have hstep : restoreStep (if sc = true then n else 0) n
        { actNumber := 0, popUpCount := 0,
          session := s.test_rewindToBlock (if sc = true then n else 0) } g
        = { actNumber := 1, popUpCount := 0,
            session := s.test_rewindToBlock (if sc = true then n else 0) } := by
      simp [restoreStep]
    rw [List.foldl_cons, hstep, restoreStep_foldl _ _ hfn t 1 0 _ (le_refl 1)]
    simp only [popBlocks_eq_take, Nat.zero_add, RPCSession.test_rewindToBlock,
      RPCSession.send, List.length_cons]
    have htake : List.take (t.length + 1 - (t.length - (n - 1))) (g :: t)
        = List.take n (g :: t) := by
      by_cases hl : n ≤ t.length + 1
      · congr 1; omega
      · rw [List.take_of_length_le (by simp; omega), List.take_of_length_le (by simp; omega)]
    rw [htake]
    cases sc with
    | true =>
      have hd : List.drop (n - 1) (List.take (n - 1) t) = [] := by simp
      simp [hd]
    | false =>
      subst hk
      simp

/-- What `restoreUpToNumber` does for target 0 when not on the same chain: the chain is
left as it is; the remote gets a rewind to 0 and the raw import of every stored block after
the first. -/
theorem restoreUpToNumber_zero (tb : TestBlockchain) (s : RPCSession) :
    restoreUpToNumber tb s 0 false
      = (tb, { s with requests := s.requests ++
          RPCCall.test_rewindToBlock 0 :: (tb.m_blocks.drop 1).map importOf }) := by
  simp only [restoreUpToNumber, Bool.false_and, Bool.false_eq_true, if_false, beq_self_eq_true,
    if_true]
  cases hb : tb.m_blocks with
  | nil => simp [RPCSession.test_rewindToBlock, RPCSession.send]
  | cons g t =>
    have hstep : restoreAllStep (0, s.test_rewindToBlock 0) g = (1, s.test_rewindToBlock 0) := by
      simp [restoreAllStep]
    rw [List.foldl_cons, hstep, restoreAll_foldl t 1 _ (le_refl 1)]
    simp [RPCSession.test_rewindToBlock, RPCSession.send]

/-- C2: with target 0 and not on the same chain, `restoreUpToNumber` leaves the chain (and so
ChainHistory) unchanged and sends the remote a rewind to height 0 followed by the raw import
of every stored block except the first one (genesis), in history order, and nothing else. -/
theorem restoreUpToNumber_zero_replays_all (tb : TestBlockchain) (s : RPCSession) :
    (restoreUpToNumber tb s 0 false).1 = tb ∧
    (restoreUpToNumber tb s 0 false).2.requests
      = s.requests ++ RPCCall.test_rewindToBlock 0 ::
          (tb.m_blocks.drop 1).map (fun b => RPCCall.test_importRawBlock b.getRLP) := by
  rw [restoreUpToNumber_zero]
  exact ⟨rfl, rfl⟩

/-- C1: for a history of length L and 0 < N < L, `restoreUpToNumber` with target N, not on
the same chain, leaves ChainHistory equal to its first N entries and sends the remote one
rewind to height 0 followed by the raw imports of the entries 1, ..., N-1 in that order, and
nothing else. -/
theorem restoreUpToNumber_truncates_and_replays (tb : TestBlockchain) (s : RPCSession)
    (N : Nat) (h0 : 0 < N) (hL : N < tb.m_blocks.length) :
    (restoreUpToNumber tb s N false).1.m_blocks = tb.m_blocks.take N ∧
    (restoreUpToNumber tb s N false).1.m_blocks.length = N ∧
    (restoreUpToNumber tb s N false).2.requests
      = s.requests ++ RPCCall.test_rewindToBlock 0 ::
          ((tb.m_blocks.take N).drop 1).map (fun b => RPCCall.test_importRawBlock b.getRLP) := by
  rw [restoreUpToNumber_pos tb s N false h0]
  refine ⟨rfl, ?_, ?_⟩
  · simp only [List.length_take]
    omega
  · rfl

theorem restoreUpToNumber_truncates_and_replays_witness :
    0 < 2 ∧ 2 < sampleChain.m_blocks.length ∧
    (restoreUpToNumber sampleChain sampleSession 2 false).1.m_blocks
      = sampleChain.m_blocks.take 2 ∧
    (restoreUpToNumber sampleChain sampleSession 2 false).1.m_blocks.length = 2 ∧
    (restoreUpToNumber sampleChain sampleSession 2 false).2.requests
      = sampleSession.requests ++ RPCCall.test_rewindToBlock 0 ::
          ((sampleChain.m_blocks.take 2).drop 1).map
            (fun b => RPCCall.test_importRawBlock b.getRLP) :=
  ⟨by decide, by decide,
    restoreUpToNumber_truncates_and_replays sampleChain sampleSession 2 (by decide) (by decide)⟩

/-- C8 fails as stated: on a history of three blocks, target 0 (not on the same chain)
leaves three entries, not zero. -/
theorem restoreUpToNumber_length_counterexample :
    (restoreUpToNumber sampleChain sampleSession 0 false).1.m_blocks.length ≠ 0 := by
  decide

/-- C8 amended: after `restoreUpToNumber` the length of ChainHistory is unchanged when the
target is 0, and is the smaller of the target and the previous length otherwise. -/
theorem restoreUpToNumber_length (tb : TestBlockchain) (s : RPCSession) (target : Nat)
    (samechain : Bool) :
    (restoreUpToNumber tb s target samechain).1.m_blocks.length
      = if target = 0 then tb.m_blocks.length else min target tb.m_blocks.length := by
  by_cases h : target = 0
  · subst h
    cases samechain <;> simp [restoreUpToNumber]
  · rw [restoreUpToNumber_pos tb s target samechain (by omega)]
    simp [h]

/-- C9 fails as stated: on the same chain with target 2 the first request is a rewind to
height 2, not to height 0. -/
theorem restoreUpToNumber_rewind_counterexample :
    (restoreUpToNumber sampleChain sampleSession 2 true).2.requests.head?
        = some (RPCCall.test_rewindToBlock 2) ∧
    (restoreUpToNumber sampleChain sampleSession 2 true).2.requests.head?
        ≠ some (RPCCall.test_rewindToBlock 0) := by
  decide

/-- C9 amended: with the same-chain flag set and target 0 the call sends nothing and
leaves the chain unchanged; in every other case the first request it sends is a rewind, to
the target height when the same-chain flag is set and to height 0 when it is not. -/
theorem restoreUpToNumber_first_request (tb : TestBlockchain) (s : RPCSession) (target : Nat)
    (samechain : Bool) :
    restoreUpToNumber tb s 0 true = (tb, s) ∧
    ∃ rest, (restoreUpToNumber tb s target samechain).2.requests
      = if samechain = true ∧ target = 0 then s.requests
        else s.requests ++
          RPCCall.test_rewindToBlock (if samechain then target else 0) :: rest := by
  refine ⟨by simp [restoreUpToNumber], ?_⟩
  by_cases h0 : target = 0
  · subst h0
    cases samechain
    · rw [restoreUpToNumber_zero]
      exact ⟨(tb.m_blocks.drop 1).map importOf, by simp⟩
    · exact ⟨[], by simp [restoreUpToNumber]⟩
  · rw [restoreUpToNumber_pos tb s target samechain (by omega)]
    refine ⟨if samechain then [] else ((tb.m_blocks.take target).drop 1).map importOf, ?_⟩
    rw [if_neg (show ¬ (samechain = true ∧ target = 0) from fun h => h0 h.2)]

/-- C10: on the same chain with a target N > 0, `restoreUpToNumber` sends the remote exactly
one request, a rewind to height N, and no import; afterwards ChainHistory is its first
min(N, L) entries, so a non-empty history keeps its first entry (genesis). -/
theorem restoreUpToNumber_samechain (tb : TestBlockchain) (s : RPCSession) (N : Nat)
    (hN : 0 < N) :
    (restoreUpToNumber tb s N true).2.requests
      = s.requests ++ [RPCCall.test_rewindToBlock N] ∧
    (restoreUpToNumber tb s N true).1.m_blocks
      = tb.m_blocks.take (min N tb.m_blocks.length) ∧
    (restoreUpToNumber tb s N true).1.m_blocks.head? = tb.m_blocks.head? := by
  rw [restoreUpToNumber_pos tb s N true hN]
  refine ⟨by simp, ?_, ?_⟩
  · show tb.m_blocks.take N = tb.m_blocks.take (min N tb.m_blocks.length)
    rcases le_total N tb.m_blocks.length with h | h
    · rw [min_eq_left h]
    · rw [min_eq_right h, List.take_of_length_le h, List.take_of_length_le (le_refl _)]
  · cases hb : tb.m_blocks with
    | nil => simp
    | cons g t =>
      obtain ⟨k, hk⟩ : ∃ k, N = k + 1 := ⟨N - 1, by omega⟩
      subst hk
      simp

theorem restoreUpToNumber_samechain_witness :
    0 < 2 ∧
    (restoreUpToNumber sampleChain sampleSession 2 true).2.requests
      = sampleSession.requests ++ [RPCCall.test_rewindToBlock 2] ∧
    (restoreUpToNumber sampleChain sampleSession 2 true).1.m_blocks
      = sampleChain.m_blocks.take (min 2 sampleChain.m_blocks.length) ∧
    (restoreUpToNumber sampleChain sampleSession 2 true).1.m_blocks.head?
      = sampleChain.m_blocks.head? :=
  ⟨by decide, restoreUpToNumber_samechain sampleChain sampleSession 2 (by decide)⟩

/-! ## Theorems: `postmineBlockHeader` -/

theorem findFrom_isSome_iff (needle hay : List Char) (pos : Nat) :
    findFrom needle hay pos ≠ none ↔ needle <:+: hay := by
  induction hay generalizing pos with
  | nil =>
    simp only [findFrom, List.infix_nil]
    cases needle <;> simp [List.isPrefixOf]
  | cons c rest ih =>
    simp only [findFrom, List.infix_cons_iff]
    by_cases h : needle.isPrefixOf (c :: rest) = true
    · simp only [h, if_true]
      simp [List.isPrefixOf_iff_prefix.mp h]
    · simp only [h, if_false, Bool.false_eq_true]
      rw [ih]
      have : ¬ needle <+: c :: rest := fun hp => h (List.isPrefixOf_iff_prefix.mpr hp)
      simp [this]

/-- The C++ `hay.find(needle) != npos` holds exactly when `needle` occurs in `hay`. -/
theorem find_ne_none_iff (hay needle : String) :
    find hay needle ≠ none ↔ needle.data <:+: hay.data :=
  findFrom_isSome_iff needle.data hay.data 0

/-- The session `postmineBlockHeader` ends in, whatever its result: the one reached by the
rewind to the parent height and the raw import of the rewritten block. -/
theorem postmineBlockHeader_session (env : Environment) (tb : TestBlockchain) (s : RPCSession)
    (blk : blockSection) (latest : BlockNumber) (uncles : List scheme_block) :
    (postmineBlockHeader env tb s blk latest uncles).2
      = ((postmineHeader env s blk latest uncles).2.2.test_rewindToBlock
            (toSizeT (latest.getBlockNumberAsInt - 1))).test_importRawBlock
          (((postmineHeader env s blk latest uncles).1.overwriteBlockHeader env
            (postmineHeader env s blk latest uncles).2.1).m_blockRLP) := by
  unfold postmineBlockHeader
  simp only [ETH_ERROR_REQUIRE_MESSAGE]
  split <;> split <;> (split at * <;> simp_all)

theorem foldl_addUncle_isValid (uncles : List scheme_block) (b : scheme_block) :
    (uncles.foldl scheme_block.addUncle b).m_isValid = b.m_isValid := by
  induction uncles generalizing b with
  | nil => rfl
  | cons u t ih => simp only [List.foldl_cons]; rw [ih]; rfl

/-- The block fetched by `postmineBlockHeader` is still marked valid after the uncles are
attached and the uncle hash is recomputed. -/
theorem postmineHeader_isValid (env : Environment) (s : RPCSession) (blk : blockSection)
    (latest : BlockNumber) (uncles : List scheme_block) :
    (postmineHeader env s blk latest uncles).1.m_isValid = true := by
  unfold postmineHeader postmineFetch
  simp only [scheme_block.recalculateUncleHash]
  split
  · rw [foldl_addUncle_isValid]; rfl
  · rfl

/-- C4: when the exception resolved for the active network is "NoException",
`postmineBlockHeader` ends with a fatal error exactly when the last error message of the
session after the raw re-import is not empty; when the message is empty it returns the
block it has just re-submitted, still marked valid. -/
theorem postmineBlockHeader_noException (env : Environment) (tb : TestBlockchain)
    (s : RPCSession) (blk : blockSection) (latest : BlockNumber) (uncles : List scheme_block)
    (hE : blk.getException tb.m_network = "NoException") :
    (returnsNormally (postmineBlockHeader env tb s blk latest uncles).1 = false ↔
      (postmineBlockHeader env tb s blk latest uncles).2.getLastRPCErrorMessage ≠ "") ∧
    ((postmineBlockHeader env tb s blk latest uncles).2.getLastRPCErrorMessage = "" →
      ∃ b, (postmineBlockHeader env tb s blk latest uncles).1 = Except.ok b ∧
        b.m_isValid = true ∧
        (postmineBlockHeader env tb s blk latest uncles).2.requests.getLast?
          = some (RPCCall.test_importRawBlock b.m_blockRLP)) := by
  have hs := postmineBlockHeader_session env tb s blk latest uncles
  have hv := postmineHeader_isValid env s blk latest uncles
  rw [hs]
  unfold postmineBlockHeader
  simp only [hE, if_true, ETH_ERROR_REQUIRE_MESSAGE]
  by_cases hm : (((postmineHeader env s blk latest uncles).2.2.test_rewindToBlock
            (toSizeT (latest.getBlockNumberAsInt - 1))).test_importRawBlock
          (((postmineHeader env s blk latest uncles).1.overwriteBlockHeader env
            (postmineHeader env s blk latest uncles).2.1).m_blockRLP)).getLastRPCErrorMessage
        = ""
  · simp only [hm, decide_True, if_true, returnsNormally, ne_eq, not_true_eq_false,
      Bool.true_eq_false, forall_true_left]
    refine ⟨trivial, _, rfl, ?_, ?_⟩
    · simpa [scheme_block.overwriteBlockHeader] using hv
    · simp [RPCSession.test_importRawBlock, RPCSession.send]
  · simp only [hm, decide_False, Bool.false_eq_true, if_false, returnsNormally, ne_eq,
      not_false_eq_true, true_iff, false_implies, and_true]

theorem postmineBlockHeader_noException_witness :
    sampleOverrideBlock.getException sampleChain.m_network = "NoException" ∧
    ((returnsNormally (postmineBlockHeader sampleEnv sampleChain sampleSession
        sampleOverrideBlock (BlockNumber.ofString "3") []).1 = false ↔
      (postmineBlockHeader sampleEnv sampleChain sampleSession sampleOverrideBlock
        (BlockNumber.ofString "3") []).2.getLastRPCErrorMessage ≠ "") ∧
    ((postmineBlockHeader sampleEnv sampleChain sampleSession sampleOverrideBlock
        (BlockNumber.ofString "3") []).2.getLastRPCErrorMessage = "" →
      ∃ b, (postmineBlockHeader sampleEnv sampleChain sampleSession sampleOverrideBlock
          (BlockNumber.ofString "3") []).1 = Except.ok b ∧
        b.m_isValid = true ∧
        (postmineBlockHeader sampleEnv sampleChain sampleSession sampleOverrideBlock
          (BlockNumber.ofString "3") []).2.requests.getLast?
          = some (RPCCall.test_importRawBlock b.m_blockRLP))) :=
  ⟨rfl, postmineBlockHeader_noException sampleEnv sampleChain sampleSession
    sampleOverrideBlock (BlockNumber.ofString "3") [] rfl⟩

/-- C3 fails as stated: with an empty exception string configured, the string occurs in
the error message of the remote (the empty string occurs in every string), yet
`postmineBlockHeader` ends with a fatal error. -/
theorem postmineBlockHeader_exception_counterexample :
    sampleInvalidBlock.getException sampleChain.m_network ≠ "NoException" ∧
    (sampleEnvUnconfigured.getExceptionString
        (sampleInvalidBlock.getException sampleChain.m_network)).data <:+:
      ((postmineBlockHeader sampleEnvUnconfigured sampleChain
        (sampleFailingSession "Invalid gas limit") sampleInvalidBlock
        (BlockNumber.ofString "3") []).2.getLastRPCErrorMessage).data ∧
    returnsNormally (postmineBlockHeader sampleEnvUnconfigured sampleChain
        (sampleFailingSession "Invalid gas limit") sampleInvalidBlock
        (BlockNumber.ofString "3") []).1 = false := by
  refine ⟨by decide, ?_, ?_⟩
  · exact List.nil_infix
  · rfl

/-- C3 amended: when the exception resolved for the active network is some E other than
"NoException", `postmineBlockHeader` returns normally exactly when the exception string
configured for E is not empty and occurs in the last error message of the session after the
raw re-import; the block it returns is marked invalid; in the other case it ends with a
fatal error. -/
theorem postmineBlockHeader_exception (env : Environment) (tb : TestBlockchain)
    (s : RPCSession) (blk : blockSection) (latest : BlockNumber) (uncles : List scheme_block)
    (hE : blk.getException tb.m_network ≠ "NoException") :
    (returnsNormally (postmineBlockHeader env tb s blk latest uncles).1 = true ↔
      (env.getExceptionString (blk.getException tb.m_network) ≠ "" ∧
        (env.getExceptionString (blk.getException tb.m_network)).data <:+:
          ((postmineBlockHeader env tb s blk latest uncles).2.getLastRPCErrorMessage).data)) ∧
    (∀ b, (postmineBlockHeader env tb s blk latest uncles).1 = Except.ok b →
      b.m_isValid = false) ∧
    (¬ (env.getExceptionString (blk.getException tb.m_network) ≠ "" ∧
        (env.getExceptionString (blk.getException tb.m_network)).data <:+:
          ((postmineBlockHeader env tb s blk latest uncles).2.getLastRPCErrorMessage).data) →
      ∃ e, (postmineBlockHeader env tb s blk latest uncles).1 = Except.error e) := by
  have hs := postmineBlockHeader_session env tb s blk latest uncles
  rw [hs]
  unfold postmineBlockHeader
  simp only [hE, if_false, ETH_ERROR_REQUIRE_MESSAGE]
  by_cases hc : env.getExceptionString (blk.getException tb.m_network) = ""
  · simp [hc, returnsNormally]
  · simp only [hc, if_false, ne_eq, not_false_eq_true, true_and]
    rw [← find_ne_none_iff]
    by_cases hf : find (((postmineHeader env s blk latest uncles).2.2.test_rewindToBlock
            (toSizeT (latest.getBlockNumberAsInt - 1))).test_importRawBlock
          (((postmineHeader env s blk latest uncles).1.overwriteBlockHeader env
            (postmineHeader env s blk latest uncles).2.1).m_blockRLP)).getLastRPCErrorMessage
        (env.getExceptionString (blk.getException tb.m_network)) = none
    · simp [hf, returnsNormally]
    · simp [hf, returnsNormally, scheme_block.setValid]

theorem postmineBlockHeader_exception_witness :
    sampleInvalidBlock.getException sampleChain.m_network ≠ "NoException" ∧
    ((returnsNormally (postmineBlockHeader sampleEnv sampleChain
        (sampleFailingSession "Invalid gas limit") sampleInvalidBlock
        (BlockNumber.ofString "3") []).1 = true ↔
      (sampleEnv.getExceptionString (sampleInvalidBlock.getException sampleChain.m_network)
          ≠ "" ∧
        (sampleEnv.getExceptionString
            (sampleInvalidBlock.getException sampleChain.m_network)).data <:+:
          ((postmineBlockHeader sampleEnv sampleChain
            (sampleFailingSession "Invalid gas limit") sampleInvalidBlock
            (BlockNumber.ofString "3") []).2.getLastRPCErrorMessage).data)) ∧
    (∀ b, (postmineBlockHeader sampleEnv sampleChain
        (sampleFailingSession "Invalid gas limit") sampleInvalidBlock
        (BlockNumber.ofString "3") []).1 = Except.ok b → b.m_isValid = false) ∧
    (¬ (sampleEnv.getExceptionString (sampleInvalidBlock.getException sampleChain.m_network)
          ≠ "" ∧
        (sampleEnv.getExceptionString
            (sampleInvalidBlock.getException sampleChain.m_network)).data <:+:
          ((postmineBlockHeader sampleEnv sampleChain
            (sampleFailingSession "Invalid gas limit") sampleInvalidBlock
            (BlockNumber.ofString "3") []).2.getLastRPCErrorMessage).data) →
      ∃ e, (postmineBlockHeader sampleEnv sampleChain
        (sampleFailingSession "Invalid gas limit") sampleInvalidBlock
        (BlockNumber.ofString "3") []).1 = Except.error e)) :=
  ⟨by decide, postmineBlockHeader_exception sampleEnv sampleChain
    (sampleFailingSession "Invalid gas limit") sampleInvalidBlock
    (BlockNumber.ofString "3") [] (by decide)⟩

/-! ## Theorems: `mineBlock` and `generateBlock` -/

/-- On `size_t` values with `b ≤ a`, the wrapping subtraction is the plain one. -/
theorem size_t_sub_eq (a b : Nat) (hb : b ≤ a) (ha : a < 2 ^ 64) : size_t_sub a b = a - b := by
  unfold size_t_sub SIZE_MAX1
  have h : a + 2 ^ 64 - b = (a - b) + 2 ^ 64 := by omega
  rw [h, Nat.add_mod_right, Nat.mod_eq_of_lt (by omega)]

theorem checkTransactions_ok_iff (c n inv : Nat) (hinv : inv ≤ n) (hn : n < 2 ^ 64) :
    returnsNormally (checkTransactions c n inv) = true ↔ c = n - inv := by
  unfold checkTransactions ETH_ERROR_REQUIRE_MESSAGE
  rw [size_t_sub_eq n inv hinv hn]
  by_cases h : c = n - inv <;> simp [h, returnsNormally]

/-- Result of `mineBlock` on the plain path. -/
theorem mineBlock_plain (env : Environment) (tb : TestBlockchain) (s : RPCSession)
    (blk : blockSection) (uncles : List scheme_block) (hp : needsPostmine blk = false) :
    (mineBlock env tb s blk uncles).1
      = (checkTransactions
          ((s.test_mineBlocks 1).2.eth_getBlockByNumber (s.test_mineBlocks 1).1 true).1.m_transactionCount
          blk.getTransactions.length blk.getInvalidTransactionCount).map
        (fun _ => ((s.test_mineBlocks 1).2.eth_getBlockByNumber (s.test_mineBlocks 1).1 true).1) := by
  unfold mineBlock
  simp only [hp, Bool.false_eq_true, if_false]
  cases checkTransactions
      ((s.test_mineBlocks 1).2.eth_getBlockByNumber (s.test_mineBlocks 1).1 true).1.m_transactionCount
      blk.getTransactions.length blk.getInvalidTransactionCount <;> rfl

/-- Result of `mineBlock` on the post-mine path. -/
theorem mineBlock_postmine (env : Environment) (tb : TestBlockchain) (s : RPCSession)
    (blk : blockSection) (uncles : List scheme_block) (hp : needsPostmine blk = true) :
    (mineBlock env tb s blk uncles).1
      = (postmineBlockHeader env tb (s.test_mineBlocks 1).2 blk
          (BlockNumber.ofString (s.test_mineBlocks 1).1) uncles).1.bind
        (fun b => (checkTransactions b.m_transactionCount blk.getTransactions.length
          blk.getInvalidTransactionCount).map (fun _ => b)) := by
  unfold mineBlock
  simp only [hp, if_true]
  rcases postmineBlockHeader env tb (s.test_mineBlocks 1).2 blk
      (BlockNumber.ofString (s.test_mineBlocks 1).1) uncles with ⟨r, s1⟩
  cases r with
  | error e => rfl
  | ok b =>
    simp only [Except.bind]
    cases checkTransactions b.m_transactionCount blk.getTransactions.length
      blk.getInvalidTransactionCount <;> rfl

/-- When `mineBlock` ends with a fatal error, so does `generateBlock`, chain unchanged. -/
theorem generateBlock_error (env : Environment) (tb : TestBlockchain) (s : RPCSession)
    (blk : blockSection) (uncles : List scheme_block) (e : String) (s1 : RPCSession)
    (h : mineBlock env tb (prepareBlock tb s blk uncles).2 blk uncles = (Except.error e, s1)) :
    generateBlock env tb s blk uncles = (Except.error e, tb, s1) := by
  unfold generateBlock
  simp only [h]

/-- When `mineBlock` returns a block, `generateBlock` appends one entry whose fixture is
the prepared one with the outcome recorded. -/
theorem generateBlock_ok (env : Environment) (tb : TestBlockchain) (s : RPCSession)
    (blk : blockSection) (uncles : List scheme_block) (b : scheme_block) (s1 : RPCSession)
    (h : mineBlock env tb (prepareBlock tb s blk uncles).2 blk uncles = (Except.ok b, s1)) :
    generateBlock env tb s blk uncles
      = (Except.ok (),
         { tb with m_blocks := tb.m_blocks ++
            [{ (prepareBlock tb s blk uncles).1 with
                m_dataForTest :=
                  recordBlock tb blk (prepareBlock tb s blk uncles).1.m_dataForTest b,
                m_nextBlockForked := some (mineNextBlockAndRewert s1).1 }] },
         (mineNextBlockAndRewert s1).2) := by
  unfold generateBlock
  simp only [h]
  rfl

/-- C5: for a block description whose invalid-transaction count does not exceed its number
of transactions (a `size_t` value), `mineBlock` returns a block only if the transaction count
of that block is the number of transactions minus the invalid-transaction count: it returns
normally exactly when, on the plain path, the fetched block has that count, or, on the
post-mine path, `postmineBlockHeader` returns a block with that count. In every other case
it ends with a fatal error, `generateBlock` ends with it too and the chain is unchanged. -/
theorem mineBlock_transaction_count (env : Environment) (tb : TestBlockchain)
    (s : RPCSession) (blk : blockSection) (uncles : List scheme_block)
    (hinv : blk.getInvalidTransactionCount ≤ blk.getTransactions.length)
    (hn : blk.getTransactions.length < 2 ^ 64) :
    (∀ b, (mineBlock env tb s blk uncles).1 = Except.ok b →
      b.m_transactionCount = blk.getTransactions.length - blk.getInvalidTransactionCount) ∧
    (returnsNormally (mineBlock env tb s blk uncles).1 = true ↔
      ((needsPostmine blk = false ∧
        ((s.test_mineBlocks 1).2.eth_getBlockByNumber
            (s.test_mineBlocks 1).1 true).1.m_transactionCount
          = blk.getTransactions.length - blk.getInvalidTransactionCount) ∨
       (needsPostmine blk = true ∧
        ∃ b, (postmineBlockHeader env tb (s.test_mineBlocks 1).2 blk
            (BlockNumber.ofString (s.test_mineBlocks 1).1) uncles).1 = Except.ok b ∧
          b.m_transactionCount
            = blk.getTransactions.length - blk.getInvalidTransactionCount))) ∧
    returnsNormally (generateBlock env tb s blk uncles).1
      = returnsNormally (mineBlock env tb (prepareBlock tb s blk uncles).2 blk uncles).1 ∧
    (generateBlock env tb s blk uncles).2.1.m_blocks.length
      = (if returnsNormally (mineBlock env tb (prepareBlock tb s blk uncles).2 blk uncles).1
        then tb.m_blocks.length + 1 else tb.m_blocks.length) ∧
    tb.m_blocks <+: (generateBlock env tb s blk uncles).2.1.m_blocks := by
  have hck := fun c => checkTransactions_ok_iff c _ _ hinv hn
  refine ⟨?_, ?_, ?_, ?_, ?_⟩
  · intro b hb
    cases hp : needsPostmine blk with
    | false =>
      rw [mineBlock_plain env tb s blk uncles hp] at hb
      have h2 := hck ((s.test_mineBlocks 1).2.eth_getBlockByNumber
        (s.test_mineBlocks 1).1 true).1.m_transactionCount
      cases hc : checkTransactions ((s.test_mineBlocks 1).2.eth_getBlockByNumber
        (s.test_mineBlocks 1).1 true).1.m_transactionCount blk.getTransactions.length
        blk.getInvalidTransactionCount with
      | error e => rw [hc] at hb; cases hb
      | ok u =>
        rw [hc] at hb h2
        simp only [Except.map] at hb
        cases hb
        exact h2.mp rfl
    | true =>
      rw [mineBlock_postmine env tb s blk uncles hp] at hb
      cases hq : (postmineBlockHeader env tb (s.test_mineBlocks 1).2 blk
          (BlockNumber.ofString (s.test_mineBlocks 1).1) uncles).1 with
      | error e => rw [hq] at hb; cases hb
      | ok b1 =>
        rw [hq] at hb
        simp only [Except.bind] at hb
        have h2 := hck b1.m_transactionCount
        cases hc : checkTransactions b1.m_transactionCount blk.getTransactions.length
          blk.getInvalidTransactionCount with
        | error e => rw [hc] at hb; cases hb
        | ok u =>
          rw [hc] at hb h2
          simp only [Except.map] at hb
          cases hb
          exact h2.mp rfl
  · cases hp : needsPostmine blk with
    | false =>
      rw [mineBlock_plain env tb s blk uncles hp]
      have h2 := hck ((s.test_mineBlocks 1).2.eth_getBlockByNumber
        (s.test_mineBlocks 1).1 true).1.m_transactionCount
      simp only [true_and, Bool.false_eq_true, false_and, or_false]
      rw [← h2]
      cases checkTransactions ((s.test_mineBlocks 1).2.eth_getBlockByNumber
        (s.test_mineBlocks 1).1 true).1.m_transactionCount blk.getTransactions.length
        blk.getInvalidTransactionCount <;> simp [Except.map, returnsNormally]
    | true =>
      rw [mineBlock_postmine env tb s blk uncles hp]
      simp only [Bool.true_eq_false, false_and, true_and, false_or]
      cases hq : (postmineBlockHeader env tb (s.test_mineBlocks 1).2 blk
          (BlockNumber.ofString (s.test_mineBlocks 1).1) uncles).1 with
      | error e => simp [Except.bind, returnsNormally]
      | ok b1 =>
        have h2 := hck b1.m_transactionCount
        simp only [Except.bind, Except.ok.injEq, exists_eq_left']
        rw [← h2]
        cases checkTransactions b1.m_transactionCount blk.getTransactions.length
          blk.getInvalidTransactionCount <;> simp [Except.map, returnsNormally]
  · rcases hm : mineBlock env tb (prepareBlock tb s blk uncles).2 blk uncles with ⟨r, s1⟩
    cases r with
    | error e => rw [generateBlock_error env tb s blk uncles e s1 hm]; rfl
    | ok b => rw [generateBlock_ok env tb s blk uncles b s1 hm]; rfl
  · rcases hm : mineBlock env tb (prepareBlock tb s blk uncles).2 blk uncles with ⟨r, s1⟩
    cases r with
    | error e => rw [generateBlock_error env tb s blk uncles e s1 hm]; simp [returnsNormally]
    | ok b => rw [generateBlock_ok env tb s blk uncles b s1 hm]; simp [returnsNormally]
  · rcases hm : mineBlock env tb (prepareBlock tb s blk uncles).2 blk uncles with ⟨r, s1⟩
    cases r with
    | error e => rw [generateBlock_error env tb s blk uncles e s1 hm]
    | ok b => rw [generateBlock_ok env tb s blk uncles b s1 hm]; exact List.prefix_append _ _

theorem mineBlock_transaction_count_witness :
    samplePlainBlock.getInvalidTransactionCount ≤ samplePlainBlock.getTransactions.length ∧
    samplePlainBlock.getTransactions.length < 2 ^ 64 ∧
    returnsNormally (mineBlock sampleEnv sampleChain sampleSession samplePlainBlock []).1
      = true ∧
    ((∀ b, (mineBlock sampleEnv sampleChain sampleSession samplePlainBlock []).1
        = Except.ok b →
      b.m_transactionCount = samplePlainBlock.getTransactions.length
        - samplePlainBlock.getInvalidTransactionCount) ∧
    (returnsNormally (mineBlock sampleEnv sampleChain sampleSession samplePlainBlock []).1
        = true ↔
      ((needsPostmine samplePlainBlock = false ∧
        ((sampleSession.test_mineBlocks 1).2.eth_getBlockByNumber
            (sampleSession.test_mineBlocks 1).1 true).1.m_transactionCount
          = samplePlainBlock.getTransactions.length
            - samplePlainBlock.getInvalidTransactionCount) ∨
       (needsPostmine samplePlainBlock = true ∧
        ∃ b, (postmineBlockHeader sampleEnv sampleChain (sampleSession.test_mineBlocks 1).2
            samplePlainBlock (BlockNumber.ofString (sampleSession.test_mineBlocks 1).1)
            []).1 = Except.ok b ∧
          b.m_transactionCount = samplePlainBlock.getTransactions.length
            - samplePlainBlock.getInvalidTransactionCount))) ∧
    returnsNormally (generateBlock sampleEnv sampleChain sampleSession samplePlainBlock []).1
      = returnsNormally (mineBlock sampleEnv sampleChain
          (prepareBlock sampleChain sampleSession samplePlainBlock []).2
          samplePlainBlock []).1 ∧
    (generateBlock sampleEnv sampleChain sampleSession samplePlainBlock []).2.1.m_blocks.length
      = (if returnsNormally (mineBlock sampleEnv sampleChain
          (prepareBlock sampleChain sampleSession samplePlainBlock []).2
          samplePlainBlock []).1
        then sampleChain.m_blocks.length + 1 else sampleChain.m_blocks.length) ∧
    sampleChain.m_blocks <+:
      (generateBlock sampleEnv sampleChain sampleSession samplePlainBlock []).2.1.m_blocks) :=
  ⟨by decide, by decide, by rfl,
    mineBlock_transaction_count sampleEnv sampleChain sampleSession samplePlainBlock []
      (by decide) (by decide)⟩

/-! ### The fixture object -/

theorem lookupField_setField (k k1 : String) (v : DataObject)
    (l : List (String × DataObject)) :
    DataObject.lookupField k1 (DataObject.setField k v l)
      = if k1 = k then some v else DataObject.lookupField k1 l := by
  induction l with
  | nil =>
    by_cases h : k1 = k
    · simp [DataObject.setField, DataObject.lookupField, h]
    · have h1 : ¬ k = k1 := fun e => h e.symm
      simp [DataObject.setField, DataObject.lookupField, h, h1]
  | cons a t ih =>
    obtain ⟨a1, w⟩ := a
    simp only [DataObject.setField]
    by_cases ha : a1 = k
    · subst ha
      by_cases h : k1 = a1
      · subst h; simp [DataObject.lookupField]
      · have h1 : ¬ a1 = k1 := fun e => h e.symm
        simp [DataObject.lookupField, h, h1]
    · simp only [ha, if_false, DataObject.lookupField]
      by_cases hk : a1 = k1
      · subst hk; simp [ha]
      · simp only [hk, if_false]; exact ih

theorem lookupField_filter (k k1 : String) (l : List (String × DataObject)) :
    DataObject.lookupField k1 (l.filter (fun kv => decide (kv.1 ≠ k)))
      = if k1 = k then none else DataObject.lookupField k1 l := by
  induction l with
  | nil => simp [DataObject.lookupField]
  | cons a t ih =>
    obtain ⟨a1, w⟩ := a
    by_cases ha : a1 = k
    · subst ha
      simp only [List.filter, ne_eq, not_true_eq_false, decide_False, DataObject.lookupField]
      rw [ih]
      by_cases h : k1 = a1
      · simp [h]
      · have h1 : ¬ a1 = k1 := fun e => h e.symm
        simp [h, h1]
    · simp only [List.filter, ne_eq, ha, not_false_eq_true, decide_True,
        DataObject.lookupField]
      rw [ih]
      by_cases hk : a1 = k1
      · subst hk; simp [ha]
      · simp [hk]

theorem count_set (d : DataObject) (k k1 : String) (v : DataObject) :
    (d.set k v).count k1 = if k1 = k then 1 else d.count k1 := by
  simp only [DataObject.count, DataObject.set, DataObject.getSubObjects, lookupField_setField]
  by_cases h : k1 = k <;> simp [h]

theorem atKey_set (d : DataObject) (k k1 : String) (v : DataObject) :
    (d.set k v).atKey k1 = if k1 = k then v else d.atKey k1 := by
  simp only [DataObject.atKey, DataObject.set, DataObject.getSubObjects, lookupField_setField]
  by_cases h : k1 = k <;> simp [h]

theorem count_removeKey (d : DataObject) (k k1 : String) :
    (d.removeKey k).count k1 = if k1 = k then 0 else d.count k1 := by
  simp only [DataObject.count, DataObject.removeKey, DataObject.getSubObjects,
    lookupField_filter]
  by_cases h : k1 = k <;> simp [h]

/-- Attaching the prepared uncles changes no key count of a fixture that already has the
key "uncleHeaders". -/
theorem foldl_uncles_count (uncles : List scheme_block) (d : DataObject) (nb : TestBlock)
    (k : String) (hd : d.count "uncleHeaders" = 1) :
    (uncles.foldl
      (fun (st : DataObject × TestBlock) uncle =>
        (st.1.set "uncleHeaders"
            ((st.1.atKey "uncleHeaders").addArrayObject uncle.m_blockHeader),
          st.2.addUncle uncle))
      (d, nb)).1.count k = d.count k := by
  induction uncles generalizing d nb with
  | nil => rfl
  | cons u t ih =>
    simp only [List.foldl_cons]
    rw [ih _ _ (by rw [count_set]; simp), count_set]
    by_cases h : k = "uncleHeaders"
    · subst h; simp [hd]
    · simp [h]

/-- The keys of the fixture prepared by `generateBlock` before mining: "chainname",
"blocknumber", "transactions" and "uncleHeaders", and no other. -/
theorem prepareBlock_count (tb : TestBlockchain) (s : RPCSession) (blk : blockSection)
    (uncles : List scheme_block) (k : String) :
    (prepareBlock tb s blk uncles).1.m_dataForTest.count k
      = if k = "chainname" ∨ k = "blocknumber" ∨ k = "transactions" ∨ k = "uncleHeaders"
        then 1 else 0 := by
  unfold prepareBlock
  simp only []
  rw [foldl_uncles_count _ _ _ _ (by rw [count_set]; simp)]
  simp only [count_set]
  by_cases h1 : k = "uncleHeaders"
  · simp [h1]
  · by_cases h2 : k = "transactions"
    · simp [h2]
    · by_cases h3 : k = "blocknumber"
      · simp [h3]
      · by_cases h4 : k = "chainname"
        · simp [h4]
        · simp [h1, h2, h3, h4, TestBlock.empty, DataObject.count, DataObject.getSubObjects,
            DataObject.lookupField]

/-- Keys of the fixture after the outcome of `mineBlock` is recorded, for a prepared
fixture `d` that has "transactions" and "uncleHeaders" and has neither "blockHeader",
"expectException" nor "rlp". -/
theorem recordBlock_keys (tb : TestBlockchain) (blk : blockSection) (d : DataObject)
    (b : scheme_block) (ht : d.count "transactions" = 1) (hu : d.count "uncleHeaders" = 1)
    (hh : d.count "blockHeader" = 0) (he : d.count "expectException" = 0) :
    (recordBlock tb blk d b).count "rlp" = 1 ∧
    (recordBlock tb blk d b).atKey "rlp" = DataObject.string b.m_blockRLP ∧
    (if b.m_isValid = true then
      (recordBlock tb blk d b).count "blockHeader" = 1 ∧
      (recordBlock tb blk d b).atKey "blockHeader" = b.m_blockHeader ∧
      (recordBlock tb blk d b).count "transactions" = 1 ∧
      (recordBlock tb blk d b).count "uncleHeaders" = 1 ∧
      (recordBlock tb blk d b).count "expectException" = 0
    else
      (recordBlock tb blk d b).count "expectException" = 1 ∧
      (recordBlock tb blk d b).atKey "expectException"
        = DataObject.string (blk.getException tb.m_network) ∧
      (recordBlock tb blk d b).count "transactions" = 0 ∧
      (recordBlock tb blk d b).count "uncleHeaders" = 0 ∧
      (recordBlock tb blk d b).count "blockHeader" = 0) := by
  unfold recordBlock
  cases hv : b.m_isValid with
  | true => simp [count_set, atKey_set, ht, hu, he]
  | false => simp [count_set, atKey_set, count_removeKey, hh]

/-- C6: when `generateBlock` completes, the fixture of the appended entry has the key "rlp"
holding the encoded bytes of the block returned by `mineBlock`; if that block is valid the
fixture has "blockHeader" (the header of the block), "transactions" and "uncleHeaders" and no
"expectException"; if it is invalid the fixture has "expectException" (the exception
resolved for the active network) and none of "transactions", "uncleHeaders",
"blockHeader". -/
theorem generateBlock_fixture (env : Environment) (tb : TestBlockchain) (s : RPCSession)
    (blk : blockSection) (uncles : List scheme_block)
    (hok : (generateBlock env tb s blk uncles).1 = Except.ok ()) :
    ∃ latestBlock entry,
      (mineBlock env tb (prepareBlock tb s blk uncles).2 blk uncles).1
        = Except.ok latestBlock ∧
      (generateBlock env tb s blk uncles).2.1.m_blocks = tb.m_blocks ++ [entry] ∧
      entry.m_dataForTest.count "rlp" = 1 ∧
      entry.m_dataForTest.atKey "rlp" = DataObject.string latestBlock.m_blockRLP ∧
      (if latestBlock.m_isValid = true then
        entry.m_dataForTest.count "blockHeader" = 1 ∧
        entry.m_dataForTest.atKey "blockHeader" = latestBlock.m_blockHeader ∧
        entry.m_dataForTest.count "transactions" = 1 ∧
        entry.m_dataForTest.count "uncleHeaders" = 1 ∧
        entry.m_dataForTest.count "expectException" = 0
      else
        entry.m_dataForTest.count "expectException" = 1 ∧
        entry.m_dataForTest.atKey "expectException"
          = DataObject.string (blk.getException tb.m_network) ∧
        entry.m_dataForTest.count "transactions" = 0 ∧
        entry.m_dataForTest.count "uncleHeaders" = 0 ∧
        entry.m_dataForTest.count "blockHeader" = 0) := by
  rcases hm : mineBlock env tb (prepareBlock tb s blk uncles).2 blk uncles with ⟨r, s1⟩
  cases r with
  | error e =>
    rw [generateBlock_error env tb s blk uncles e s1 hm] at hok
    cases hok
  | ok b =>
    rw [generateBlock_ok env tb s blk uncles b s1 hm]
    have hk := recordBlock_keys tb blk (prepareBlock tb s blk uncles).1.m_dataForTest b
      (by rw [prepareBlock_count]; simp) (by rw [prepareBlock_count]; simp)
      (by rw [prepareBlock_count]; simp) (by rw [prepareBlock_count]; simp)
    exact ⟨b, _, rfl, rfl, hk.1, hk.2.1, hk.2.2⟩

theorem generateBlock_fixture_witness :
    (generateBlock sampleEnv sampleChain sampleSession samplePlainBlock []).1
      = Except.ok () ∧
    ∃ latestBlock entry,
      (mineBlock sampleEnv sampleChain
          (prepareBlock sampleChain sampleSession samplePlainBlock []).2
          samplePlainBlock []).1 = Except.ok latestBlock ∧
      (generateBlock sampleEnv sampleChain sampleSession samplePlainBlock []).2.1.m_blocks
        = sampleChain.m_blocks ++ [entry] ∧
      entry.m_dataForTest.count "rlp" = 1 ∧
      entry.m_dataForTest.atKey "rlp" = DataObject.string latestBlock.m_blockRLP ∧
      (if latestBlock.m_isValid = true then
        entry.m_dataForTest.count "blockHeader" = 1 ∧
        entry.m_dataForTest.atKey "blockHeader" = latestBlock.m_blockHeader ∧
        entry.m_dataForTest.count "transactions" = 1 ∧
        entry.m_dataForTest.count "uncleHeaders" = 1 ∧
        entry.m_dataForTest.count "expectException" = 0
      else
        entry.m_dataForTest.count "expectException" = 1 ∧
        entry.m_dataForTest.atKey "expectException"
          = DataObject.string (samplePlainBlock.getException sampleChain.m_network) ∧
        entry.m_dataForTest.count "transactions" = 0 ∧
        entry.m_dataForTest.count "uncleHeaders" = 0 ∧
        entry.m_dataForTest.count "blockHeader" = 0) :=
  ⟨rfl, generateBlock_fixture sampleEnv sampleChain sampleSession samplePlainBlock [] rfl⟩

/-! ## Theorems: relative timestamp -/

theorem digitChar_toNat (d : Nat) (hd : d < 10) : (Char.ofNat (48 + d)).toNat - 48 = d := by
  interval_cases d <;> rfl

theorem parseDecimal_decimalDigits (fuel n : Nat) (acc : List Char) (h : n < fuel) :
    List.foldl (fun a c => 10 * a + (c.toNat - 48)) 0 (decimalDigits fuel n acc)
      = List.foldl (fun a c => 10 * a + (c.toNat - 48)) n acc := by
  induction fuel generalizing n acc with
  | zero => omega
  | succ f ih =>
    simp only [decimalDigits]
    by_cases hz : n / 10 = 0
    · simp only [hz, if_true, List.foldl_cons, Nat.mul_zero, Nat.zero_add]
      rw [digitChar_toNat _ (Nat.mod_lt _ (by decide))]
      have : n % 10 = n := Nat.mod_eq_of_lt (by omega)
      rw [this]
    · simp only [hz, if_false]
      rw [ih (n / 10) _ (by omega)]
      simp only [List.foldl_cons]
      rw [digitChar_toNat _ (Nat.mod_lt _ (by decide))]
      have : 10 * (n / 10) + n % 10 = n := Nat.div_add_mod n 10
      rw [this]

/-- Reading the decimal string of a number gives the number back. -/
theorem parseDecimal_natToString (n : Nat) : parseDecimal (natToString n).data = n := by
  unfold parseDecimal natToString
  rw [parseDecimal_decimalDigits (n + 1) n [] (by omega)]
  rfl

/-- The shift written "+N" is read as N. -/
theorem parseSigned_plus (n : Nat) :
    parseSigned (String.mk ('+' :: (natToString n).data)) = (n : Int) := by
  unfold parseSigned
  simp only [parseDecimal_natToString]
  rfl

/-- An override that is neither the relative-timestamp directive nor a plain timestamp
leaves the timestamp of the header as it is. -/
theorem overwriteStep_timestamp_other (latest : BlockNumber) (st : DataObject × RPCSession)
    (kv : String × DataObject) (h1 : kv.1 ≠ "RelTimestamp") (h2 : kv.1 ≠ "timestamp") :
    (overwriteStep latest st kv).1.atKey "timestamp" = st.1.atKey "timestamp" := by
  have h3 : ¬ "timestamp" = kv.1 := fun e => h2 e.symm
  unfold overwriteStep
  simp only [h1, if_false]
  split
  · rfl
  · split
    · simp [atKey_set, h3]
    · rfl

theorem foldl_overwriteStep_timestamp (latest : BlockNumber) (post : List (String × DataObject))
    (st : DataObject × RPCSession)
    (hpost : ∀ kv ∈ post, kv.1 ≠ "RelTimestamp" ∧ kv.1 ≠ "timestamp") :
    (post.foldl (overwriteStep latest) st).1.atKey "timestamp" = st.1.atKey "timestamp" := by
  induction post generalizing st with
  | nil => rfl
  | cons kv t ih =>
    simp only [List.foldl_cons]
    rw [ih _ (fun x hx => hpost x (List.mem_cons_of_mem _ hx))]
    exact overwriteStep_timestamp_other latest st kv
      (hpost kv (List.mem_cons_self _ _)).1 (hpost kv (List.mem_cons_self _ _)).2

/-- The relative-timestamp directive "+N" writes the timestamp of the reported parent plus
N into the header. -/
theorem overwriteStep_relTimestamp (latest : BlockNumber) (st : DataObject × RPCSession)
    (N : Nat) :
    (overwriteStep latest st
        ("RelTimestamp", DataObject.string (String.mk ('+' :: (natToString N).data)))).1.atKey
        "timestamp"
      = DataObject.string (intToString
          (timestampOf (st.2.eth_getBlockByNumber
            (latest.applyShift (-1)).getBlockNumberAsString false).1 + N)) := by
  have h1 : ¬ ("RelTimestamp" = "updatePoW" ∨ "RelTimestamp" = "expectException") := by decide
  unfold overwriteStep
  simp only [h1, if_false, if_true, atKey_set, DataObject.asString,
    BlockNumber.applyShiftString, parseSigned_plus]
  rfl

/-- The block returned by `postmineBlockHeader` carries the header left by the overrides. -/
theorem postmineBlockHeader_header (env : Environment) (tb : TestBlockchain) (s : RPCSession)
    (blk : blockSection) (latest : BlockNumber) (uncles : List scheme_block) (b : scheme_block)
    (hb : (postmineBlockHeader env tb s blk latest uncles).1 = Except.ok b) :
    b.m_blockHeader = (postmineHeader env s blk latest uncles).2.1 := by
  unfold postmineBlockHeader at hb
  simp only [ETH_ERROR_REQUIRE_MESSAGE] at hb
  split at hb
  · split at hb
    · rename_i heq
      split at heq <;> simp_all
    · rename_i heq
      simp only [Except.ok.injEq] at hb
      subst hb
      rfl
  · split at hb
    · rename_i heq
      split at heq <;> simp_all
    · rename_i heq
      simp only [Except.ok.injEq] at hb
      subst hb
      rfl

/-- C7 fails as stated: with the overrides `RelTimestamp = "+5"` and then
`timestamp = "7"`, on a parent whose timestamp is 1000, the header that is written has the
timestamp 7, not 1005. -/
theorem postmine_relTimestamp_counterexample :
    (sampleTimestampBlock.getData.atKey "blockHeader").getSubObjects.map
      (fun kv => (kv.1, kv.2.asString)) = [("RelTimestamp", "+5"), ("timestamp", "7")] ∧
    timestampOf (reportedParent sampleEnv sampleSession sampleTimestampBlock
      (BlockNumber.ofString "3") [] []) = 1000 ∧
    ((postmineHeader sampleEnv sampleSession sampleTimestampBlock
      (BlockNumber.ofString "3") []).2.1.atKey "timestamp").asString = "7" ∧
    "7" ≠ intToString (1000 + 5) := by
  refine ⟨by rfl, by rfl, by rfl, by decide⟩

/-- C7 amended: when the override list holds a `RelTimestamp` directive "+N" and no later
entry of the list is named `RelTimestamp` or `timestamp`, the "timestamp" field of the header
that `postmineBlockHeader` writes into the block and re-submits (and returns, when it
returns) is the timestamp of the parent block, as the remote reports it for height
latest - 1, plus N. -/
theorem postmine_relTimestamp (env : Environment) (tb : TestBlockchain) (s : RPCSession)
    (blk : blockSection) (latest : BlockNumber) (uncles : List scheme_block)
    (pre post : List (String × DataObject)) (N : Nat)
    (hbh : blk.getData.count "blockHeader" ≠ 0)
    (hov : (blk.getData.atKey "blockHeader").getSubObjects
      = pre ++ ("RelTimestamp", DataObject.string (String.mk ('+' :: (natToString N).data)))
          :: post)
    (hpost : ∀ kv ∈ post, kv.1 ≠ "RelTimestamp" ∧ kv.1 ≠ "timestamp") :
    (postmineHeader env s blk latest uncles).2.1.atKey "timestamp"
      = DataObject.string (intToString
          (timestampOf (reportedParent env s blk latest uncles pre) + N)) ∧
    (∀ b, (postmineBlockHeader env tb s blk latest uncles).1 = Except.ok b →
      b.m_blockHeader.atKey "timestamp"
        = DataObject.string (intToString
            (timestampOf (reportedParent env s blk latest uncles pre) + N))) ∧
    (postmineBlockHeader env tb s blk latest uncles).2.requests.getLast?
      = some (RPCCall.test_importRawBlock
          (env.encodeBlock (postmineHeader env s blk latest uncles).2.1
            (postmineHeader env s blk latest uncles).1.m_uncles
            (postmineHeader env s blk latest uncles).1.m_blockHeader)) := by
  have hmain : (postmineHeader env s blk latest uncles).2.1.atKey "timestamp"
      = DataObject.string (intToString
          (timestampOf (reportedParent env s blk latest uncles pre) + N)) := by
    unfold postmineHeader reportedParent
    simp only [hbh, ne_eq, not_false_eq_true, if_true, hov, List.foldl_append, List.foldl_cons]
    rw [foldl_overwriteStep_timestamp latest post _ hpost, overwriteStep_relTimestamp]
  refine ⟨hmain, ?_, ?_⟩
  · intro b hb
    rw [postmineBlockHeader_header env tb s blk latest uncles b hb]
    exact hmain
  · rw [postmineBlockHeader_session]
    simp [RPCSession.test_importRawBlock, RPCSession.send, scheme_block.overwriteBlockHeader]

theorem postmine_relTimestamp_witness :
    sampleRelTimestampBlock.getData.count "blockHeader" ≠ 0 ∧
    timestampOf (reportedParent sampleEnv sampleSession sampleRelTimestampBlock
      (BlockNumber.ofString "3") [] []) = 1000 ∧
    intToString (1000 + 5) = "1005" ∧
    ((postmineHeader sampleEnv sampleSession sampleRelTimestampBlock
        (BlockNumber.ofString "3") []).2.1.atKey "timestamp"
      = DataObject.string (intToString
          (timestampOf (reportedParent sampleEnv sampleSession sampleRelTimestampBlock
            (BlockNumber.ofString "3") [] []) + (5 : Nat))) ∧
    (∀ b, (postmineBlockHeader sampleEnv sampleChain sampleSession sampleRelTimestampBlock
        (BlockNumber.ofString "3") []).1 = Except.ok b →
      b.m_blockHeader.atKey "timestamp"
        = DataObject.string (intToString
            (timestampOf (reportedParent sampleEnv sampleSession sampleRelTimestampBlock
              (BlockNumber.ofString "3") [] []) + (5 : Nat)))) ∧
    (postmineBlockHeader sampleEnv sampleChain sampleSession sampleRelTimestampBlock
        (BlockNumber.ofString "3") []).2.requests.getLast?
      = some (RPCCall.test_importRawBlock
          (sampleEnv.encodeBlock
            (postmineHeader sampleEnv sampleSession sampleRelTimestampBlock
              (BlockNumber.ofString "3") []).2.1
            (postmineHeader sampleEnv sampleSession sampleRelTimestampBlock
              (BlockNumber.ofString "3") []).1.m_uncles
            (postmineHeader sampleEnv sampleSession sampleRelTimestampBlock
              (BlockNumber.ofString "3") []).1.m_blockHeader))) :=
  ⟨by decide, by rfl, by decide,
    postmine_relTimestamp sampleEnv sampleChain sampleSession sampleRelTimestampBlock
      (BlockNumber.ofString "3") [] [] [] 5 (by decide) (by rfl)
      (fun kv hkv => absurd hkv (List.not_mem_nil kv))⟩

end retesteth
